import Mathlib

/-!
Verification development for the casino-backend signing oracle.

The Go sources embedded here:
  utils/file.go  : offset store (ReadOffset / WriteOffset) over a
                   seekable, truncatable byte sink (FileStorage);
  main package   : event loop (RunEventProcessor), per-event pipeline
                   (processEvent) and the HTTP signing handler (SignQuery).

External collaborators (Go standard library scanning, the eos-go chain
client, the broker client) are modelled at their boundary: their outcome
on one call is an explicit parameter of the embedded function.
-/

namespace Casino

/-! ## Byte-sink model of the FileStorage interface

FileStorage (utils/file.go) is an interface with Read, Write,
Truncate and Seek.  The canonical implementation is an os.File: a byte
content plus an input-output position.  Truncate changes the size but
not the position; Seek sets the position; Write writes at the position
(zero-padding any gap past the end of content, as a file does).
-/

structure FileStorage where
  content : List Char
  pos : Nat
deriving DecidableEq, Repr

def FileStorage.writeAt (st : FileStorage) (bs : List Char) : FileStorage :=
  let padded := st.content ++ List.replicate (st.pos - st.content.length) (Char.ofNat 0)
  { content := padded.take st.pos ++ bs ++ padded.drop (st.pos + bs.length),
    pos := st.pos + bs.length }

def FileStorage.truncate0 (st : FileStorage) : FileStorage :=
  { st with content := [] }

def FileStorage.seekStart (st : FileStorage) : FileStorage :=
  { st with pos := 0 }

/-! ## Decimal formatting: strconv.Itoa

strconv.Itoa takes a signed int (64-bit two-complement), so
WriteOffset converts its uint64 argument through int first.
-/

/-- Go conversion int(v) for v of type uint64 on a 64-bit platform:
    reinterpret the low 64 bits in two-complement. -/
def goIntOfUint64 (v : Nat) : Int :=
  if v % 2 ^ 64 < 2 ^ 63 then ((v % 2 ^ 64 : Nat) : Int)
  else ((v % 2 ^ 64 : Nat) : Int) - 2 ^ 64

def digitChar (d : Nat) : Char := Char.ofNat (48 + d)

/-- Big-endian decimal digits of a positive number; the first argument
    is fuel bounding the recursion depth (any fuel at least n works). -/
def natDecAux : Nat → Nat → List Char
  | 0, _ => []
  | _, 0 => []
  | fuel + 1, n + 1 =>
      natDecAux fuel ((n + 1) / 10) ++ [digitChar ((n + 1) % 10)]

/-- Decimal representation of a natural number, as strconv prints it. -/
def natDec (n : Nat) : List Char :=
  if n = 0 then [digitChar 0] else natDecAux n n

/-- strconv.Itoa on a signed 64-bit int. -/
def itoa (i : Int) : List Char :=
  if i < 0 then Char.ofNat 45 :: natDec i.natAbs else natDec i.natAbs

/-! ## Scanning: fmt.Fscan of a uint64

fmt.Fscan with a *uint64 argument skips leading white space, then
scans one unsigned integer token in verb v mode: a leading 0 selects a
base prefix (0x hex, 0b binary, 0o or bare 0 octal), otherwise decimal;
a sign is not accepted; the token is the maximal run of digits of the
selected base; strconv.ParseUint then rejects values outside 64 bits.
An empty input (or one whose first non-space byte is not acceptable)
is a scan error, as is end of file.
-/

def isSpaceChar (c : Char) : Bool :=
  c.toNat = 32 ∨ c.toNat = 9 ∨ c.toNat = 10 ∨ c.toNat = 13

def isDecDigit (c : Char) : Bool := 48 ≤ c.toNat ∧ c.toNat ≤ 57

def isOctDigit (c : Char) : Bool := 48 ≤ c.toNat ∧ c.toNat ≤ 55

def isBinDigit (c : Char) : Bool := c.toNat = 48 ∨ c.toNat = 49

def isHexDigit (c : Char) : Bool :=
  (48 ≤ c.toNat ∧ c.toNat ≤ 57) ∨ (97 ≤ c.toNat ∧ c.toNat ≤ 102) ∨
    (65 ≤ c.toNat ∧ c.toNat ≤ 70)

/-- Numeric value of one digit character (decimal or hex, either case). -/
def charVal (c : Char) : Nat :=
  if 97 ≤ c.toNat then c.toNat - 87
  else if 65 ≤ c.toNat then c.toNat - 55
  else c.toNat - 48

/-- Value of a digit token read most-significant first. -/
def tokVal (base : Nat) (tok : List Char) : Nat :=
  tok.foldl (fun acc c => base * acc + charVal c) 0

/-- Scan the maximal digit run of the given base; haveZero records that
    a leading 0 was already consumed (so an empty run is still the
    number zero rather than an error); reject 64-bit overflow. -/
def scanNumber (isDig : Char → Bool) (base : Nat) (haveZero : Bool)
    (s : List Char) : Option Nat :=
  let tok := s.takeWhile isDig
  if tok.isEmpty && !haveZero then none
  else if tokVal base tok < 2 ^ 64 then some (tokVal base tok) else none

/-- fmt.Fscan of one uint64 from a byte sequence. -/
def fscanUint64 (s : List Char) : Option Nat :=
  match s.dropWhile isSpaceChar with
  | [] => none
  | c :: rest =>
    if c = digitChar 0 then
      match rest with
      | x :: r =>
        if x = Char.ofNat 120 ∨ x = Char.ofNat 88 then scanNumber isHexDigit 16 true r
        else if x = Char.ofNat 98 ∨ x = Char.ofNat 66 then scanNumber isBinDigit 2 true r
        else if x = Char.ofNat 111 ∨ x = Char.ofNat 79 then scanNumber isOctDigit 8 true r
        else scanNumber isOctDigit 8 true rest
      | [] => scanNumber isOctDigit 8 true rest
    else scanNumber isDecDigit 10 false (c :: rest)

/-! ## The offset store (utils/file.go)

func ReadOffset(r FileStorage) (uint64, error) scans one uint64 with
fmt.Fscan starting from the current position of r.

func WriteOffset(w FileStorage, offset uint64) error does, in order:
Truncate(0), Seek(0, 0), Write(strconv.Itoa(int(offset))), returning
the first error.  Each of the three interface calls is fallible; the
FaultFlags record says which of them fails on this invocation (a
failing call is modelled as leaving the sink as it was at that point).
-/

def ReadOffset (st : FileStorage) : Option Nat :=
  fscanUint64 (st.content.drop st.pos)

structure FaultFlags where
  truncateFails : Bool
  seekFails : Bool
  writeFails : Bool
deriving DecidableEq, Repr

def noFaults : FaultFlags :=
  { truncateFails := false, seekFails := false, writeFails := false }

/-- WriteOffset; the Bool is whether an error was returned, paired with
    the storage as the call leaves it. -/
def WriteOffset (f : FaultFlags) (st : FileStorage) (offset : Nat) :
    Bool × FileStorage :=
  let bs := itoa (goIntOfUint64 offset)
  if f.truncateFails then (true, st)
  else
    let st1 := st.truncate0
    if f.seekFails then (true, st1)
    else
      let st2 := st1.seekStart
      if f.writeFails then (true, st2)
      else (false, st2.writeAt bs)

/-- WriteOffset on a sink whose Truncate, Seek and Write all succeed. -/
def writeOffsetOk (st : FileStorage) (offset : Nat) : FileStorage :=
  (WriteOffset noFaults st offset).2

/-! ## The per-event pipeline (main package, processEvent)

Opaque values produced or consumed by the eos-go chain client are
modelled as tokens; ChainEnv gives the outcome of each collaborator
call made by processEvent: rsaSign over the digest, TxOptions
FillFromChain, GetSigndiceTransaction, and PushTransaction (whose
success carries the chain-assigned transaction id).
-/

deriving instance DecidableEq for Except

abbrev Checksum256 := Nat
abbrev TxOptions := Nat
abbrev PackedTransaction := Nat
abbrev SignedTransaction := Nat

structure Event where
  sender : String
  requestID : Nat
  /-- Outcome of json.Unmarshal of event.Data into a struct with a
      digest field: the digest, or the parse error. -/
  data : Except String Checksum256
deriving DecidableEq, Repr

structure ChainEnv where
  rsaSign : Checksum256 → Except String String
  fillFromChain : Except String TxOptions
  getSigndiceTransaction : String → Nat → String → TxOptions → Except String PackedTransaction
  pushTransaction : PackedTransaction → Except String String

/-- func (app *App) processEvent(event *broker.Event) *string: each
    fallible step logs and returns nil on failure; on success the
    chain-assigned transaction id is returned. -/
def processEvent (env : ChainEnv) (event : Event) : Option String :=
  match event.data with
  | .error _ => none
  | .ok digest =>
    match env.rsaSign digest with
    | .error _ => none
    | .ok signature =>
      match env.fillFromChain with
      | .error _ => none
      | .ok txOpts =>
        match env.getSigndiceTransaction event.sender event.requestID signature txOpts with
        | .error _ => none
        | .ok packedTx =>
          match env.pushTransaction packedTx with
          | .error _ => none
          | .ok txid => some txid

/-- All five steps of processEvent succeed. -/
def processSucceeds (env : ChainEnv) (event : Event) : Prop :=
  ∃ digest signature txOpts packedTx txid,
    event.data = .ok digest ∧
    env.rsaSign digest = .ok signature ∧
    env.fillFromChain = .ok txOpts ∧
    env.getSigndiceTransaction event.sender event.requestID signature txOpts = .ok packedTx ∧
    env.pushTransaction packedTx = .ok txid

/-! ## The event loop (main package, RunEventProcessor)

for then select: the ctx.Done case returns; the channel case sees
either a closed channel (ok false) or one EventMessage.  In Go a bare
break inside a select only leaves the select, so both the closed
channel case and the empty batch case fall back to the top of the for
loop.  One loop iteration is a function of which select case fired,
recording its observable effects in order: one launched goroutine per
event (go app.processEvent(event)), then the offset write attempt,
then the error log when that write fails (the write outcome is given
by the writeFails parameter).
-/

structure EventMessage where
  offset : Nat
  events : List Event
deriving DecidableEq, Repr

inductive ChanRecv where
  | closed
  | msg (m : EventMessage)
deriving DecidableEq, Repr

inductive SelectCase where
  | ctxDone
  | recv (r : ChanRecv)
deriving DecidableEq, Repr

inductive StepResult where
  | stopped
  | looping
deriving DecidableEq, Repr

inductive LoopEffect where
  | launch (e : Event)
  | offsetWrite (v : Nat)
  | logWriteError
deriving DecidableEq, Repr

def LoopEffect.isOffsetWrite : LoopEffect → Bool
  | .offsetWrite _ => true
  | _ => false

def LoopEffect.isLaunch : LoopEffect → Bool
  | .launch _ => true
  | _ => false

/-- One iteration of the for loop of RunEventProcessor. -/
def runEventProcessorStep (writeFails : Bool) (sel : SelectCase) :
    StepResult × List LoopEffect :=
  match sel with
  | .ctxDone => (.stopped, [])
  | .recv .closed => (.looping, [])
  | .recv (.msg m) =>
    if m.events.length = 0 then (.looping, [])
    else
      (.looping,
        m.events.map LoopEffect.launch ++
          LoopEffect.offsetWrite (m.offset + 1) ::
            (if writeFails then [LoopEffect.logWriteError] else []))

/-- Iterated loop: feed one fired select case per iteration until the
    loop returns or the schedule is exhausted; collect all effects. -/
def runEventProcessorTrace (writeFails : Bool) :
    List SelectCase → StepResult × List LoopEffect
  | [] => (.looping, [])
  | sel :: rest =>
    match runEventProcessorStep writeFails sel with
    | (.stopped, effs) => (.stopped, effs)
    | (.looping, effs) =>
      let next := runEventProcessorTrace writeFails rest
      (next.1, effs ++ next.2)

/-! ## The HTTP signing handler (main package, SignQuery)

The request body is what ioutil.ReadAll produced: the bytes read so
far plus the error, which the handler discards with a blank
identifier.  SignApi gives the outcome of each collaborator call:
json.Unmarshal into an eos.SignedTransaction, api.Signer.Sign with the
chain id and the deposit key, signedTx.Pack (a value and an error, the
error again discarded), and api.PushTransaction.
-/

structure RequestBody where
  bytesRead : List Char
  readErr : Option String

structure SignApi where
  unmarshalTx : List Char → Except String SignedTransaction
  signerSign : SignedTransaction → Except String SignedTransaction
  pack : SignedTransaction → PackedTransaction × Option String
  pushTransaction : PackedTransaction → Except String String

structure HttpResponse where
  status : Nat
  body : List (String × String)
deriving DecidableEq, Repr

inductive NetEffect where
  | signCall
  | stateFetch
  | pushCall (p : PackedTransaction)
deriving DecidableEq, Repr

def respondWithJSON (code : Nat) (payload : List (String × String)) : HttpResponse :=
  { status := code, body := payload }

def respondWithError (code : Nat) (message : String) : HttpResponse :=
  respondWithJSON code [("error", message)]

/-- func (app *App) SignQuery(writer, req): the response written plus
    the collaborator calls made, in order. -/
def SignQuery (api : SignApi) (req : RequestBody) : HttpResponse × List NetEffect :=
  let rawTransaction := req.bytesRead
  match api.unmarshalTx rawTransaction with
  | .error _ => (respondWithError 400 "failed to deserialize transaction", [])
  | .ok tx =>
    match api.signerSign tx with
    | .error _ => (respondWithError 500 "failed to sign transaction", [.signCall])
    | .ok signedTx =>
      let packedTrx := (api.pack signedTx).1
      match api.pushTransaction packedTrx with
      | .error reason =>
        (respondWithError 400
            ("failed to send transaction to the blockchain, reason: " ++ reason),
          [.signCall, .pushCall packedTrx])
      | .ok txid =>
        (respondWithJSON 200 [("txid", txid)], [.signCall, .pushCall packedTrx])

/-! Concrete sample collaborators and inputs, used to exercise the
    statements above on closed instances. -/

def sampleEnv : ChainEnv :=
  { rsaSign := fun _ => Except.ok "sig64",
    fillFromChain := Except.ok 1,
    getSigndiceTransaction := fun _ _ _ _ => Except.ok 2,
    pushTransaction := fun _ => Except.ok "txid123" }

def sampleEvent : Event :=
  { sender := "alice", requestID := 1, data := Except.ok 5 }

def sampleBadApi : SignApi :=
  { unmarshalTx := fun _ => Except.error "invalid character",
    signerSign := fun tx => Except.ok tx,
    pack := fun tx => (tx, none),
    pushTransaction := fun _ => Except.ok "tid9" }

def sampleOkApi : SignApi :=
  { unmarshalTx := fun _ => Except.ok 5,
    signerSign := fun _ => Except.ok 6,
    pack := fun _ => (9, some "pack failed"),
    pushTransaction := fun _ => Except.ok "tid9" }

def sampleBody : RequestBody := { bytesRead := [digitChar 4], readErr := none }

end Casino

namespace Casino

theorem natDecAux_zero (fuel : Nat) : natDecAux fuel 0 = [] := by
  cases fuel <;> rfl

theorem digitChar_isDec (d : Nat) (h : d < 10) : isDecDigit (digitChar d) = true := by
  revert h
  revert d
  decide

theorem digitChar_pos_ne_zero (d : Nat) (h : d < 10) (h0 : 0 < d) :
    digitChar d ≠ digitChar 0 := by
  revert h h0
  revert d
  decide

theorem charVal_digitChar (d : Nat) (h : d < 10) : charVal (digitChar d) = d := by
  revert h
  revert d
  decide

theorem tokVal_append (base : Nat) (l : List Char) (c : Char) :
    tokVal base (l ++ [c]) = base * tokVal base l + charVal c := by
  simp [tokVal, List.foldl_append]

theorem natDecAux_all_digits (fuel : Nat) :
    ∀ n, ∀ c ∈ natDecAux fuel n, isDecDigit c = true := by
  induction fuel with
  | zero => intro n c hc; simp [natDecAux] at hc
  | succ f ih =>
    intro n c hc
    cases n with
    | zero => simp [natDecAux] at hc
    | succ m =>
      rw [natDecAux] at hc
      rcases List.mem_append.mp hc with h | h
      · exact ih _ c h
      · simp only [List.mem_singleton] at h
        subst h
        exact digitChar_isDec _ (Nat.mod_lt _ (by decide))

theorem tokVal_natDecAux (fuel : Nat) :
    ∀ n, 0 < n → n ≤ fuel → tokVal 10 (natDecAux fuel n) = n := by
  induction fuel with
  | zero => intro n h1 h2; omega
  | succ f ih =>
    intro n h1 h2
    cases n with
    | zero => omega
    | succ m =>
      rw [natDecAux, tokVal_append, charVal_digitChar _ (Nat.mod_lt _ (by decide))]
      by_cases hq : (m + 1) / 10 = 0
      · rw [hq, natDecAux_zero]
        simp [tokVal]
        omega
      · rw [ih ((m + 1) / 10) (Nat.pos_of_ne_zero hq) (by omega)]
        omega

theorem natDecAux_head (fuel : Nat) :
    ∀ n, 0 < n → n ≤ fuel →
      ∃ c cs, natDecAux fuel n = c :: cs ∧ isDecDigit c = true ∧ c ≠ digitChar 0 := by
  induction fuel with
  | zero => intro n h1 h2; omega
  | succ f ih =>
    intro n h1 h2
    cases n with
    | zero => omega
    | succ m =>
      rw [natDecAux]
      by_cases hq : (m + 1) / 10 = 0
      · rw [hq, natDecAux_zero]
        have hlt : m + 1 < 10 := by omega
        refine ⟨digitChar ((m + 1) % 10), [], rfl, ?_, ?_⟩
        · exact digitChar_isDec _ (Nat.mod_lt _ (by decide))
        · have : (m + 1) % 10 = m + 1 := Nat.mod_eq_of_lt hlt
          rw [this]
          exact digitChar_pos_ne_zero _ hlt (Nat.succ_pos m)
      · obtain ⟨c, cs, heq, hdig, hne⟩ :=
          ih ((m + 1) / 10) (Nat.pos_of_ne_zero hq) (by omega)
        exact ⟨c, cs ++ [digitChar ((m + 1) % 10)], by rw [heq]; rfl, hdig, hne⟩

theorem isDecDigit_not_space (c : Char) (h : isDecDigit c = true) :
    isSpaceChar c = false := by
  simp only [isDecDigit, decide_eq_true_eq] at h
  simp only [isSpaceChar, decide_eq_false_iff_not]
  omega

/-- fmt.Fscan parses back the decimal representation of any value that
    fits in 64 bits. -/
theorem fscanUint64_natDec (n : Nat) (h : n < 2 ^ 64) :
    fscanUint64 (natDec n) = some n := by
  by_cases h0 : n = 0
  · subst h0; decide
  · have hpos : 0 < n := Nat.pos_of_ne_zero h0
    obtain ⟨c, cs, heq, hdig, hne⟩ := natDecAux_head n n hpos le_rfl
    have hval : tokVal 10 (c :: cs) = n := by
      rw [← heq]
      exact tokVal_natDecAux n n hpos le_rfl
    have halldig : ∀ x ∈ c :: cs, isDecDigit x = true := by
      rw [← heq]
      exact natDecAux_all_digits n n
    have hnatDec : natDec n = c :: cs := by
      rw [natDec, if_neg h0, heq]
    rw [hnatDec]
    unfold fscanUint64
    have hdrop : (c :: cs).dropWhile isSpaceChar = c :: cs := by
      rw [List.dropWhile_cons, isDecDigit_not_space c hdig]
      simp
    rw [hdrop]
    simp only [if_neg hne]
    unfold scanNumber
    have htake : (c :: cs).takeWhile isDecDigit = c :: cs :=
      List.takeWhile_eq_self_iff.mpr halldig
    rw [htake]
    simp [hval]
    omega

theorem writeOffsetOk_eq (st : FileStorage) (v : Nat) :
    writeOffsetOk st v =
      { content := itoa (goIntOfUint64 v), pos := (itoa (goIntOfUint64 v)).length } := by
  simp [writeOffsetOk, WriteOffset, noFaults, FileStorage.truncate0,
    FileStorage.seekStart, FileStorage.writeAt]

theorem itoa_goInt_small (v : Nat) (h : v < 2 ^ 63) :
    itoa (goIntOfUint64 v) = natDec v := by
  have hmod : v % 2 ^ 64 = v := Nat.mod_eq_of_lt (by omega)
  rw [goIntOfUint64, hmod, if_pos h, itoa]
  simp

/-- After a successful WriteOffset of a value below 2 to the 63, a read
    from the start of the sink parses the value back. -/
theorem readOffset_after_write (st : FileStorage) (v : Nat) (h : v < 2 ^ 63) :
    ReadOffset ((writeOffsetOk st v).seekStart) = some v := by
  rw [writeOffsetOk_eq, itoa_goInt_small v h]
  simp only [ReadOffset, FileStorage.seekStart, List.drop_zero]
  exact fscanUint64_natDec v (by omega)

theorem natDec_five : natDec 5 = [digitChar 5] := by decide

theorem fscan_five : fscanUint64 (natDec 5) = some 5 := by decide

theorem fscan_zero : fscanUint64 (natDec 0) = some 0 := by decide

theorem fscan_twelve : fscanUint64 (natDec 12) = some 12 := by decide

theorem roundtrip_small :
    ReadOffset ((writeOffsetOk { content := [], pos := 0 } 7).seekStart) = some 7 := by
  decide

theorem roundtrip_same_handle_fails :
    ReadOffset (writeOffsetOk { content := [], pos := 0 } 7) = none := by
  decide

/-- Claim C3 fails as stated: reading right after a write on the same
    handle finds the position at end of content, so the scan hits end
    of file even for value 0; and for 2 to the 63 the conversion
    through signed int makes WriteOffset emit a negative decimal that
    the uint64 scan rejects even from the start of the sink. -/
theorem c3_counterexample :
    ReadOffset (writeOffsetOk { content := [], pos := 0 } 0) ≠ some 0 ∧
    ReadOffset ((writeOffsetOk { content := [], pos := 0 } (2 ^ 63)).seekStart) ≠
      some (2 ^ 63) := by
  decide

/-- Claim C3 (amended): for every offset value below 2 to the 63,
    WriteOffset followed by ReadOffset from the start of the same
    backing storage returns the value. -/
theorem c3_offset_roundtrip (st : FileStorage) (v : Nat) (h : v < 2 ^ 63) :
    ReadOffset ((writeOffsetOk st v).seekStart) = some v :=
  readOffset_after_write st v h

theorem c3_offset_roundtrip_witness :
    4096 < 2 ^ 63 ∧
      ReadOffset ((writeOffsetOk { content := [], pos := 0 } 4096).seekStart) = some 4096 :=
  ⟨by norm_num, c3_offset_roundtrip { content := [], pos := 0 } 4096 (by norm_num)⟩

/-- Claim C8 fails as stated: after writing 0 twice the content is
    exactly the decimal representation with no stale bytes, yet the
    subsequent read on the same handle starts at the end of the
    content and fails instead of returning 0. -/
theorem c8_counterexample :
    (writeOffsetOk
        (writeOffsetOk { content := [digitChar 1, digitChar 2, digitChar 3], pos := 3 } 0)
        0).content = [digitChar 0] ∧
    ReadOffset
        (writeOffsetOk
          (writeOffsetOk { content := [digitChar 1, digitChar 2, digitChar 3], pos := 3 } 0)
          0) ≠ some 0 := by
  decide

/-- Claim C8 (amended): for every offset value below 2 to the 63 and
    every prior content, writing the value twice leaves exactly its
    decimal representation with no stale trailing bytes, and a read
    from the start of the storage returns the value. -/
theorem c8_write_idempotent (st : FileStorage) (v : Nat) (h : v < 2 ^ 63) :
    (writeOffsetOk (writeOffsetOk st v) v).content = natDec v ∧
    ReadOffset ((writeOffsetOk (writeOffsetOk st v) v).seekStart) = some v := by
  constructor
  · rw [writeOffsetOk_eq, itoa_goInt_small v h]
  · exact readOffset_after_write _ v h

theorem c8_write_idempotent_witness :
    7 < 2 ^ 63 ∧
      (writeOffsetOk (writeOffsetOk { content := [digitChar 9], pos := 1 } 7) 7).content =
        natDec 7 :=
  ⟨by norm_num,
    (c8_write_idempotent { content := [digitChar 9], pos := 1 } 7 (by norm_num)).1⟩

/-- Claim C6 fails as stated: the write sequence is truncate, then
    seek, then write; when the seek fails after a successful truncate
    the call reports an error but the storage has already been
    truncated, so it holds neither the new decimal representation nor
    its prior state. -/
theorem c6_counterexample :
    (WriteOffset { truncateFails := false, seekFails := true, writeFails := false }
        { content := [digitChar 4, digitChar 2], pos := 2 } 7).1 = true ∧
    (WriteOffset { truncateFails := false, seekFails := true, writeFails := false }
        { content := [digitChar 4, digitChar 2], pos := 2 } 7).2.content ≠
      [digitChar 4, digitChar 2] ∧
    (WriteOffset { truncateFails := false, seekFails := true, writeFails := false }
        { content := [digitChar 4, digitChar 2], pos := 2 } 7).2.content ≠
      itoa (goIntOfUint64 7) := by
  decide

/-- Claim C6 (amended): for every offset value and every storage
    state, WriteOffset truncates then rewrites: on success the storage
    holds exactly what strconv.Itoa makes of the signed reinterpretation
    of the offset and nothing else -- which is the decimal
    representation of the offset whenever the value is below 2 to the
    63; on error the storage is either unchanged (truncate failed) or
    left truncated empty (a later step failed) -- the sequence is not
    atomic. -/
theorem c6_write_truncate_rewrite (f : FaultFlags) (st : FileStorage) (v : Nat) :
    ((WriteOffset f st v).1 = false →
      (WriteOffset f st v).2.content = itoa (goIntOfUint64 v) ∧
        (v < 2 ^ 63 → (WriteOffset f st v).2.content = natDec v)) ∧
    ((WriteOffset f st v).1 = true →
      (WriteOffset f st v).2 = st ∨ (WriteOffset f st v).2.content = []) := by
  obtain ⟨t, s, w⟩ := f
  cases t <;> cases s <;> cases w <;>
    simp [WriteOffset, FileStorage.truncate0, FileStorage.seekStart, FileStorage.writeAt]
  exact fun h => itoa_goInt_small v h

theorem c6_write_truncate_rewrite_witness :
    (WriteOffset noFaults { content := [digitChar 8], pos := 1 } 3).2.content = natDec 3 :=
  ((c6_write_truncate_rewrite noFaults { content := [digitChar 8], pos := 1 } 3).1 rfl).2
    (by norm_num)

/-- Claim C1 fails as stated: on a batch with zero events and offset 5
    the loop iteration performs no effect at all -- the break that
    skips signing also leaves the select before the offset write, so
    there is no offset write of 6 (zero writes, not one). -/
theorem c1_counterexample :
    (runEventProcessorStep false
        (SelectCase.recv (ChanRecv.msg { offset := 5, events := [] }))).2 = [] ∧
    (runEventProcessorStep false
        (SelectCase.recv (ChanRecv.msg { offset := 5, events := [] }))).2.countP
        LoopEffect.isOffsetWrite ≠ 1 := by
  decide

/-- Claim C1 (amended): a batch carrying zero events is skipped
    entirely: the loop launches no signing and also performs no offset
    write, and simply continues with the next iteration. -/
theorem c1_empty_batch_skipped (w : Bool) (m : EventMessage) (h : m.events = []) :
    runEventProcessorStep w (SelectCase.recv (ChanRecv.msg m)) =
      (StepResult.looping, []) := by
  simp [runEventProcessorStep, h]

theorem c1_empty_batch_skipped_witness :
    runEventProcessorStep false (SelectCase.recv (ChanRecv.msg { offset := 7, events := [] })) =
      (StepResult.looping, []) :=
  c1_empty_batch_skipped false { offset := 7, events := [] } rfl

/-- Claim C2: the code does not reach the terminal state when the
    channel closes.  The break in the closed channel case only leaves
    the select, so with the context live the loop re-enters the select
    and keeps observing the closed channel forever (any number of
    consecutive closed receipts leaves it looping), while one fired
    ctx.Done case does stop it. -/
theorem c2_closed_channel_no_stop (n : Nat) :
    (runEventProcessorTrace false
        (List.replicate n (SelectCase.recv ChanRecv.closed))).1 = StepResult.looping ∧
    (runEventProcessorTrace false [SelectCase.ctxDone]).1 = StepResult.stopped := by
  refine ⟨?_, rfl⟩
  induction n with
  | zero => rfl
  | succ k ih =>
    simpa [List.replicate_succ, runEventProcessorTrace, runEventProcessorStep] using ih

/-- Claim C4: a non-empty batch of N events yields N launches followed
    by exactly one offset write carrying offset plus one; a write
    failure only adds a log entry and the loop keeps looping. -/
theorem c4_nonempty_batch (w : Bool) (m : EventMessage) (h : m.events ≠ []) :
    (runEventProcessorStep w (SelectCase.recv (ChanRecv.msg m))).1 = StepResult.looping ∧
    (runEventProcessorStep w (SelectCase.recv (ChanRecv.msg m))).2 =
      m.events.map LoopEffect.launch ++
        LoopEffect.offsetWrite (m.offset + 1) ::
          (if w then [LoopEffect.logWriteError] else []) ∧
    (runEventProcessorStep w (SelectCase.recv (ChanRecv.msg m))).2.countP
        LoopEffect.isOffsetWrite = 1 ∧
    (runEventProcessorStep w (SelectCase.recv (ChanRecv.msg m))).2.countP
        LoopEffect.isLaunch = m.events.length := by
  have hlen : ¬ m.events.length = 0 := by
    simpa [List.length_eq_zero] using h
  refine ⟨by simp [runEventProcessorStep, hlen], by simp [runEventProcessorStep, hlen], ?_, ?_⟩ <;>
    cases w <;>
      simp [runEventProcessorStep, hlen, List.countP_append, List.countP_cons,
        List.countP_map, Function.comp_def, LoopEffect.isOffsetWrite, LoopEffect.isLaunch,
        List.countP_eq_length]

theorem c4_nonempty_batch_witness :
    (runEventProcessorStep true
        (SelectCase.recv
          (ChanRecv.msg
            { offset := 2,
              events := [{ sender := "alice", requestID := 1, data := Except.ok 5 }] }))).2 =
      [LoopEffect.launch { sender := "alice", requestID := 1, data := Except.ok 5 },
        LoopEffect.offsetWrite 3, LoopEffect.logWriteError] :=
  (c4_nonempty_batch true
      { offset := 2, events := [{ sender := "alice", requestID := 1, data := Except.ok 5 }] }
      (by decide)).2.1

/-- Claim C5: processEvent is a total function into Option String, so
    it always terminates normally with no propagated error; it returns
    none exactly when some step of the pipeline fails, and on success
    it returns the transaction id assigned by the chain push. -/
theorem c5_process_event (env : ChainEnv) (event : Event) :
    (processEvent env event = none ↔ ¬ processSucceeds env event) ∧
    (∀ digest signature txOpts packedTx txid,
      event.data = Except.ok digest →
      env.rsaSign digest = Except.ok signature →
      env.fillFromChain = Except.ok txOpts →
      env.getSigndiceTransaction event.sender event.requestID signature txOpts =
        Except.ok packedTx →
      env.pushTransaction packedTx = Except.ok txid →
      processEvent env event = some txid) := by
  constructor
  · constructor
    · intro hnone hsucc
      obtain ⟨d, s, t, p, x, h1, h2, h3, h4, h5⟩ := hsucc
      simp only [processEvent, h1, h2, h3, h4, h5] at hnone
      exact Option.noConfusion hnone
    · intro hns
      rcases hd : event.data with e | d
      · simp [processEvent, hd]
      rcases hs : env.rsaSign d with e | s
      · simp [processEvent, hd, hs]
      rcases ht : env.fillFromChain with e | t
      · simp [processEvent, hd, hs, ht]
      rcases hp : env.getSigndiceTransaction event.sender event.requestID s t with e | p
      · simp [processEvent, hd, hs, ht, hp]
      rcases hx : env.pushTransaction p with e | x
      · simp [processEvent, hd, hs, ht, hp, hx]
      exact absurd ⟨d, s, t, p, x, hd, hs, ht, hp, hx⟩ hns
  · intro d s t p x h1 h2 h3 h4 h5
    simp [processEvent, h1, h2, h3, h4, h5]

theorem c5_process_event_witness :
    processEvent sampleEnv sampleEvent = some "txid123" :=
  (c5_process_event sampleEnv sampleEvent).2 5 "sig64" 1 2 "txid123" rfl rfl rfl rfl rfl

/-- Claim C7: when deserialization of the request body fails, the
    handler answers 400 with the fixed error body and has made no
    collaborator call at all. -/
theorem c7_malformed_body (api : SignApi) (req : RequestBody) (e : String)
    (h : api.unmarshalTx req.bytesRead = Except.error e) :
    SignQuery api req =
      (respondWithError 400 "failed to deserialize transaction", []) := by
  simp [SignQuery, h]

theorem c7_malformed_body_witness :
    SignQuery sampleBadApi sampleBody =
      (respondWithError 400 "failed to deserialize transaction", []) :=
  c7_malformed_body sampleBadApi sampleBody "invalid character" rfl

/-- Claim C9: the handler drops the error of the body read, so its
    whole behaviour depends only on the bytes that were read; in
    particular a read failure surfaces, if at all, as the 400
    deserialization answer when those bytes do not parse. -/
theorem c9_read_error_discarded (api : SignApi) (bytes : List Char)
    (e1 e2 : Option String) :
    SignQuery api { bytesRead := bytes, readErr := e1 } =
      SignQuery api { bytesRead := bytes, readErr := e2 } ∧
    (∀ err, api.unmarshalTx bytes = Except.error err →
      (SignQuery api { bytesRead := bytes, readErr := e1 }).1 =
        respondWithError 400 "failed to deserialize transaction") := by
  refine ⟨rfl, ?_⟩
  intro err h
  simp [SignQuery, h]

theorem c9_read_error_discarded_witness :
    (SignQuery sampleBadApi { bytesRead := [digitChar 4], readErr := some "read failed" }).1 =
      respondWithError 400 "failed to deserialize transaction" :=
  (c9_read_error_discarded sampleBadApi [digitChar 4] (some "read failed") none).2
    "invalid character" rfl

/-- Claim C10: the handler drops the error of the pack step: its
    behaviour only depends on the packed value, and once the body
    parses and signing succeeds the push is attempted with that value
    regardless of the pack error, the answer being decided by the push
    outcome alone (no packing error is ever reported). -/
theorem c10_pack_error_discarded (api : SignApi) (req : RequestBody) :
    SignQuery
        { unmarshalTx := api.unmarshalTx, signerSign := api.signerSign,
          pack := fun tx => ((api.pack tx).1, none),
          pushTransaction := api.pushTransaction } req =
      SignQuery api req ∧
    (∀ tx signedTx, api.unmarshalTx req.bytesRead = Except.ok tx →
      api.signerSign tx = Except.ok signedTx →
      (SignQuery api req).2 =
        [NetEffect.signCall, NetEffect.pushCall (api.pack signedTx).1] ∧
      (∀ r, api.pushTransaction (api.pack signedTx).1 = Except.error r →
        (SignQuery api req).1 =
          respondWithError 400
            ("failed to send transaction to the blockchain, reason: " ++ r)) ∧
      (∀ t, api.pushTransaction (api.pack signedTx).1 = Except.ok t →
        (SignQuery api req).1 = respondWithJSON 200 [("txid", t)])) := by
  refine ⟨rfl, ?_⟩
  intro tx signedTx h1 h2
  refine ⟨?_, ?_, ?_⟩
  · rcases hp : api.pushTransaction (api.pack signedTx).1 with r | t <;>
      simp [SignQuery, h1, h2, hp]
  · intro r hp
    simp [SignQuery, h1, h2, hp]
  · intro t hp
    simp [SignQuery, h1, h2, hp]

theorem c10_pack_error_discarded_witness :
    (SignQuery sampleOkApi sampleBody).2 =
      [NetEffect.signCall, NetEffect.pushCall 9] :=
  ((c10_pack_error_discarded sampleOkApi sampleBody).2 5 6 rfl rfl).1

end Casino
